import Mathlib

/-!
Verification development for a mahjong hand evaluator.

The repository contains four variants of the evaluator, in the source files
`jjjj.py`, `lebron.py`, `smalljj.py` and `jonjonjon.py`; each variant is a
`JapaneseMahjong` class holding a parser (`parse_hand`), a pattern checker
(`check_yaku` / `calculate_fan`), a backtracking meld decomposition
(`_is_valid_winning_pattern` / `_try_form_melds` / `_analyze_hand` /
`_get_melds_recursive`) and a point table (`BASE_POINTS` / `get_points`).

This file gives a shallow embedding of those functions.  Hands are records of
four rank lists (one per suit, in the dictionary order m, p, s, z used by the
source), Python dicts of multiplicities are embedded as counting functions
over the flattened tile list, and the two recursive searches are embedded with
an explicit fuel argument (structural recursion on the fuel) so that they are
executable by the kernel; the fuel `length + 1` is always sufficient because
every recursive step of the source removes three tiles, a fact proved below.
-/

inductive Suit where
  | m
  | p
  | s
  | z
deriving DecidableEq, Repr

/-- A hand, as the per-suit rank lists of the Python dict
`{'m': [...], 'p': [...], 's': [...], 'z': [...]}` in its insertion order. -/
structure Tiles where
  m : List Nat
  p : List Nat
  s : List Nat
  z : List Nat
deriving DecidableEq, Repr

def Tiles.get (t : Tiles) : Suit → List Nat
  | Suit.m => t.m
  | Suit.p => t.p
  | Suit.s => t.s
  | Suit.z => t.z

/-- The numeric suits, in the order the source iterates `['m', 'p', 's']`. -/
def numericSuits : List Suit := [Suit.m, Suit.p, Suit.s]

/-- All suits, in the dict iteration order of the source. -/
def allSuits : List Suit := [Suit.m, Suit.p, Suit.s, Suit.z]

/-- `sum(len(tiles[s]) for s in tiles)`. -/
def totalCount (t : Tiles) : Nat :=
  t.m.length + t.p.length + t.s.length + t.z.length

/-- `len([s for s in ['m','p','s'] if tiles[s]])`, the number of non-empty
numeric suits used by the flush checks. -/
def numericNonEmptyCount (t : Tiles) : Nat :=
  (numericSuits.filter (fun su => !(t.get su).isEmpty)).length

/-- All ranks of the hand, suits conflated; this is the key space of the
rank-only dict built by `jjjj.py`'s `_count_tiles`. -/
def rankList (t : Tiles) : List Nat := t.m ++ t.p ++ t.s ++ t.z

/-- `counts.get(num, 0)` for the rank-only dict of `jjjj.py`'s `_count_tiles`. -/
def rankCount (t : Tiles) (r : Nat) : Nat := (rankList t).count r

/-- The distinct keys of the rank-only dict of `jjjj.py`'s `_count_tiles`. -/
def rankKeys (t : Tiles) : List Nat := (rankList t).dedup

/-- The hand flattened to `(suit, rank)` tiles in suit-major order. -/
def tileList (t : Tiles) : List (Suit × Nat) :=
  t.m.map (fun n => (Suit.m, n)) ++ t.p.map (fun n => (Suit.p, n)) ++
    t.s.map (fun n => (Suit.s, n)) ++ t.z.map (fun n => (Suit.z, n))

/-- `counts.get((suit, num), 0)` for the `(suit, rank)`-keyed dicts built by
`smalljj.py`'s `_count_tiles` and `lebron.py`'s `_count_all`. -/
def tileCount (t : Tiles) (k : Suit × Nat) : Nat := (tileList t).count k

/-- The distinct keys of the `(suit, rank)`-keyed count dicts. -/
def tileKeys (t : Tiles) : List (Suit × Nat) := (tileList t).dedup

/-- Insertion into a sorted list of ranks. -/
def insertNat (n : Nat) : List Nat → List Nat
  | [] => [n]
  | a :: l => if n ≤ a then n :: a :: l else a :: insertNat n l

/-- `sorted(...)` on a rank list (insertion sort; the source only sorts lists
of small naturals, so any comparison sort is an adequate embedding). -/
def sortNat : List Nat → List Nat
  | [] => []
  | a :: l => insertNat a (sortNat l)

/-- `for suit in tiles: tiles[suit].sort()`. -/
def sortTiles (t : Tiles) : Tiles :=
  ⟨sortNat t.m, sortNat t.p, sortNat t.s, sortNat t.z⟩

/-- `tiles[suit].append(num)`. -/
def Tiles.addNum (t : Tiles) : Suit → Nat → Tiles
  | Suit.m, n => { t with m := t.m ++ [n] }
  | Suit.p, n => { t with p := t.p ++ [n] }
  | Suit.s, n => { t with s := t.s ++ [n] }
  | Suit.z, n => { t with z := t.z ++ [n] }

/-- `tiles_copy[pair_suit].remove(pair_num)`: remove the first occurrence of
the rank from the suit's list. -/
def eraseTile (t : Tiles) (k : Suit × Nat) : Tiles :=
  match k.1 with
  | Suit.m => { t with m := t.m.erase k.2 }
  | Suit.p => { t with p := t.p.erase k.2 }
  | Suit.s => { t with s := t.s.erase k.2 }
  | Suit.z => { t with z := t.z.erase k.2 }

/-- `{suit: tiles[suit][:] for suit in tiles}`: the per-suit list copy the
source takes before removing candidate pairs.  With value semantics the copy
is the same record. -/
def copyTiles (t : Tiles) : Tiles := ⟨t.m, t.p, t.s, t.z⟩

/-! ### Parsing (`parse_hand` of `jjjj.py` / `smalljj.py`, and of `lebron.py`) -/

/-- Error outcomes of `parse_hand`.  `stuck` marks the inputs on which the
source's `while` loop stops advancing its index (a character that is neither a
digit nor a suit mark, with no pending digits) and hence never returns; the
embedding's fuel of `length + 1` is only exhausted on such inputs, since every
completed loop iteration consumes at least one character. -/
inductive ParseErr where
  | emptyInput
  | badRank (n : Nat)
  | noSuitMark
  | stuck
deriving DecidableEq, Repr

def isSuitChar (c : Char) : Bool :=
  c == 'm' || c == 'p' || c == 's' || c == 'z'

def suitOfChar (c : Char) : Suit :=
  if c = 'm' then Suit.m
  else if c = 'p' then Suit.p
  else if c = 's' then Suit.s
  else Suit.z

/-- The digit-appending loop of `jjjj.py`'s `parse_hand`:
`for num in numbers: if not (1 <= num <= 9): raise ...; tiles[suit].append(num)`. -/
def jjjj_addNums (t : Tiles) (su : Suit) : List Nat → Except ParseErr Tiles
  | [] => Except.ok t
  | n :: ns =>
    if 1 ≤ n ∧ n ≤ 9 then jjjj_addNums (t.addNum su n) su ns
    else Except.error (ParseErr.badRank n)

/-- The scanning loop of `jjjj.py`'s `parse_hand`: collect a run of digits,
require a following suit mark, validate and append each digit. -/
def jjjj_parse_loop : Nat → List Char → Tiles → Except ParseErr Tiles
  | 0, _, _ => Except.error ParseErr.stuck
  | fuel + 1, cs, acc =>
    if cs.isEmpty then Except.ok acc
    else
      match cs.dropWhile Char.isDigit with
      | [] =>
        if ((cs.takeWhile Char.isDigit).map (fun c => c.toNat - 48)).isEmpty then
          Except.ok acc
        else Except.error ParseErr.noSuitMark
      | c :: rest =>
        if isSuitChar c then
          match jjjj_addNums acc (suitOfChar c)
              ((cs.takeWhile Char.isDigit).map (fun c => c.toNat - 48)) with
          | Except.ok acc2 => jjjj_parse_loop fuel rest acc2
          | Except.error e => Except.error e
        else if ((cs.takeWhile Char.isDigit).map (fun c => c.toNat - 48)).isEmpty then
          Except.error ParseErr.stuck
        else Except.error ParseErr.noSuitMark

/-- `jjjj.py` (and, line for line, `smalljj.py`) `parse_hand`: strip spaces,
reject empty input, run the scanning loop, sort every suit. -/
def jjjj_parse_hand (input : List Char) : Except ParseErr Tiles :=
  if (input.filter (fun c => !(c == ' '))).isEmpty then
    Except.error ParseErr.emptyInput
  else
    match jjjj_parse_loop ((input.filter (fun c => !(c == ' '))).length + 1)
        (input.filter (fun c => !(c == ' '))) ⟨[], [], [], []⟩ with
    | Except.ok t => Except.ok (sortTiles t)
    | Except.error e => Except.error e

/-- `lebron.py`'s digit-appending loop: `for num in numbers:
tiles[suit].append(num)` — no range validation at all. -/
def lebron_addNums (t : Tiles) (su : Suit) : List Nat → Tiles
  | [] => t
  | n :: ns => lebron_addNums (t.addNum su n) su ns

/-- The scanning loop of `lebron.py`'s `parse_hand`: digits with no following
suit mark at end of input are silently dropped; a junk character makes the
source loop forever (`stuck`). -/
def lebron_parse_loop : Nat → List Char → Tiles → Except ParseErr Tiles
  | 0, _, _ => Except.error ParseErr.stuck
  | fuel + 1, cs, acc =>
    if cs.isEmpty then Except.ok acc
    else
      match cs.dropWhile Char.isDigit with
      | [] => Except.ok acc
      | c :: rest =>
        if isSuitChar c then
          lebron_parse_loop fuel rest
            (lebron_addNums acc (suitOfChar c)
              ((cs.takeWhile Char.isDigit).map (fun c => c.toNat - 48)))
        else Except.error ParseErr.stuck

/-- `lebron.py` `parse_hand`: strip spaces (no empty-input check, no rank
validation), run the scanning loop, sort every suit. -/
def lebron_parse_hand (input : List Char) : Except ParseErr Tiles :=
  match lebron_parse_loop ((input.filter (fun c => !(c == ' '))).length + 1)
      (input.filter (fun c => !(c == ' '))) ⟨[], [], [], []⟩ with
  | Except.ok t => Except.ok (sortTiles t)
  | Except.error e => Except.error e

/-! ### Pattern names and melds -/

/-- The named patterns (yaku) appearing across the four variants, by their
romanized names: `qingyise` 清一色, `hunyise` 混一色, `daisangen` 大三元,
`haku`/`hatsu`/`chun` the three dragon-triplet yaku, `chiitoitsu` 七對子,
`toitoi` 対々和, `tanyao` 斷幺九, `kihon` 基本和, `muyaku` 無役 (the sentinel),
`riichi` 立直, `menzentsumo` 門前清自摸和, `jikaze` 風子（自風）, `honroto` 混老頭,
`chanta` 混全帯幺九, `junchan` 純全帯幺九, `pinfu` 平和, `iipeiko` 一盃口,
`ryanpeiko` 二盃口, `sanshokudojun` 三色同順, `sanshokudoko` 三色同刻,
`ittsu` 一氣通貫, `sananko` 三暗刻, `shosangen` 小三元, `kokushi` 國士無雙,
`churen` 九蓮寶燈, `tsuiso` 字一色, `ryuiso` 綠一色, `daisushi` 大四喜,
`suanko` 四暗刻. -/
inductive Yaku where
  | qingyise
  | hunyise
  | daisangen
  | haku
  | hatsu
  | chun
  | chiitoitsu
  | toitoi
  | tanyao
  | kihon
  | muyaku
  | riichi
  | menzentsumo
  | jikaze
  | honroto
  | chanta
  | junchan
  | pinfu
  | iipeiko
  | ryanpeiko
  | sanshokudojun
  | sanshokudoko
  | ittsu
  | sananko
  | shosangen
  | kokushi
  | churen
  | tsuiso
  | ryuiso
  | daisushi
  | suanko
deriving DecidableEq, Repr

inductive MeldType where
  | triplet
  | sequence
deriving DecidableEq, Repr

/-- A meld as the source's tuple `(type, suit, value)`. -/
abbrev Meld := MeldType × Suit × Nat

/-- `sum(fan for _, fan in yaku_list)`. -/
def yakuSum (l : List (Yaku × Nat)) : Nat := (l.map (fun y => y.2)).sum

/-! ### The meld search (`_try_form_melds` of `jjjj.py` and, line for line,
`smalljj.py`; `_get_melds_recursive` of `lebron.py`) -/

/-- `_try_form_melds(tile_list)`: can the list be partitioned into triplets
and sequences?  At each step the first tile either heads a triplet (three
copies present) or a sequence (numeric suit, rank at most 7, the next two
ranks present); each removal is of the first matching occurrence, as
`list.remove` is.  The fuel argument makes the recursion structural; every
recursive call removes exactly three tiles, so fuel `length + 1` suffices
(theorem `C9_search_termination`).  `none` means the fuel ran out. -/
def tryFormMeldsF : Nat → List (Suit × Nat) → Option Bool
  | 0, _ => none
  | _ + 1, [] => some true
  | fuel + 1, (su, n) :: rest =>
    if ¬ ((su, n) :: rest).length % 3 = 0 then some false
    else
      match
        (if 3 ≤ ((su, n) :: rest).count (su, n) then
          tryFormMeldsF fuel
            (((((su, n) :: rest).erase (su, n)).erase (su, n)).erase (su, n))
        else some false),
        (if su ≠ Suit.z ∧ n ≤ 7 ∧ (su, n + 1) ∈ (su, n) :: rest ∧
            (su, n + 2) ∈ (su, n) :: rest then
          tryFormMeldsF fuel
            (((((su, n) :: rest).erase (su, n)).erase (su, n + 1)).erase (su, n + 2))
        else some false) with
      | some b1, some b2 => some (b1 || b2)
      | _, _ => none

def jjjj_try_form_melds (l : List (Suit × Nat)) : Bool :=
  (tryFormMeldsF (l.length + 1) l).getD false

/-- `_check_melds_valid(tiles)`: flatten the hand in suit-major order with each
suit sorted, then run the meld search. -/
def jjjj_check_melds_valid (t : Tiles) : Bool :=
  jjjj_try_form_melds
    ((sortNat t.m).map (fun n => (Suit.m, n)) ++
      (sortNat t.p).map (fun n => (Suit.p, n)) ++
      (sortNat t.s).map (fun n => (Suit.s, n)) ++
      (sortNat t.z).map (fun n => (Suit.z, n)))

/-- The candidate heads: every `(suit, rank)` with multiplicity at least 2, in
suit-major order (`for suit in tiles: for num in set(tiles[suit]): ...`). -/
def pairCandidates (t : Tiles) : List (Suit × Nat) :=
  allSuits.flatMap (fun su =>
    (((t.get su).dedup.filter (fun n => decide (2 ≤ (t.get su).count n))).map
      (fun n => (su, n))))

/-- `_is_valid_winning_pattern(tiles)` of `jjjj.py` (and, with the same body,
`smalljj.py`, see `smalljj_is_valid_winning_pattern`): a 14-tile hand that
splits into one pair plus four melds.  Each candidate pair is removed from a
per-candidate copy of the hand, never from the input. -/
def jjjj_is_valid_winning_pattern (t : Tiles) : Bool :=
  if ¬ (tileList t).length = 14 then false
  else
    (pairCandidates t).any (fun k =>
      jjjj_check_melds_valid (eraseTile (eraseTile (copyTiles t) k) k))

/-! ### `jjjj.py` pattern checks -/

/-- `_check_seven_pairs(counts)` over the rank-only counts of `jjjj.py`'s
`_count_tiles` (note: the dict key is the bare rank, so suits are conflated). -/
def jjjj_check_seven_pairs (t : Tiles) : Bool :=
  (rankKeys t).countP (fun r => rankCount t r == 2) == 7

/-- `_check_big_three_dragons(counts)` of `jjjj.py`, again over rank-only
counts: any suit's rank 5, 6, 7 triplets qualify, not only honor tiles. -/
def jjjj_check_big_three_dragons (t : Tiles) : Bool :=
  ([5, 6, 7].countP (fun d => decide (3 ≤ rankCount t d))) == 3

/-- `_check_all_triplets(counts)` of `jjjj.py` (rank-only counts). -/
def jjjj_check_all_triplets (t : Tiles) : Bool :=
  (rankKeys t).all
      (fun r => rankCount t r == 2 || rankCount t r == 3 || rankCount t r == 4) &&
    decide (3 ≤ (rankKeys t).countP
      (fun r => rankCount t r == 3 || rankCount t r == 4))

/-- `_has_terminal_or_honor(tiles)`. -/
def jjjj_has_terminal_or_honor (t : Tiles) : Bool :=
  t.m.contains 1 || t.m.contains 9 || t.p.contains 1 || t.p.contains 9 ||
    t.s.contains 1 || t.s.contains 9 || !t.z.isEmpty

/-- The dragon-yaku loop of `check_yaku`: `for dragon_num, dragon_name in
self.DRAGONS.items(): if counts.get(dragon_num, 0) >= 3: append` — rank-only
counts, insertion order 5 白, 6 發, 7 中. -/
def jjjj_dragon_yaku (t : Tiles) : List (Yaku × Nat) :=
  (if 3 ≤ rankCount t 5 then [(Yaku.haku, 1)] else []) ++
    (if 3 ≤ rankCount t 6 then [(Yaku.hatsu, 1)] else []) ++
    (if 3 ≤ rankCount t 7 then [(Yaku.chun, 1)] else [])

/-- The yaku list accumulated by `jjjj.py`'s `check_yaku` after the seven-pairs
check fails: dragon yaku, then 対々和, then 斷幺九. -/
def jjjj_base_list (t : Tiles) : List (Yaku × Nat) :=
  jjjj_dragon_yaku t ++
    (if jjjj_check_all_triplets t then [(Yaku.toitoi, 2)] else []) ++
    (if jjjj_has_terminal_or_honor t then [] else [(Yaku.tanyao, 1)])

/-- The tail of `jjjj.py`'s `check_yaku`: if the hand has a standard split and
the list so far is empty (or the lone sentinel, which cannot occur here), it
becomes `[('基本和', 1)]`; an empty final list becomes `[('無役', 0)]`. -/
def jjjj_base_result (t : Tiles) : List (Yaku × Nat) :=
  if jjjj_is_valid_winning_pattern t = true ∧
      (jjjj_base_list t = [] ∨
        (jjjj_base_list t).length = 1 ∧
          ((jjjj_base_list t).headD (Yaku.muyaku, 0)).1 = Yaku.muyaku) then
    [(Yaku.kihon, 1)]
  else if jjjj_base_list t = [] then [(Yaku.muyaku, 0)]
  else jjjj_base_list t

/-- `check_yaku(tiles)` of `jjjj.py`: flush checks return immediately, then
big three dragons, then (after recording dragon triplets) seven pairs returns
immediately, and otherwise the accumulated list is completed by
`jjjj_base_result`. -/
def jjjj_check_yaku (t : Tiles) : List (Yaku × Nat) :=
  if numericNonEmptyCount t = 1 ∧ t.z = [] then [(Yaku.qingyise, 6)]
  else if numericNonEmptyCount t = 1 ∧ t.z ≠ [] then [(Yaku.hunyise, 3)]
  else if jjjj_check_big_three_dragons t then [(Yaku.daisangen, 13)]
  else if jjjj_check_seven_pairs t then
    jjjj_dragon_yaku t ++ [(Yaku.chiitoitsu, 2)]
  else jjjj_base_result t

/-- `calculate_fan(tiles)` of `jjjj.py`: the yaku list together with the sum
of its values. -/
def jjjj_calculate_fan (t : Tiles) : List (Yaku × Nat) × Nat :=
  (jjjj_check_yaku t, yakuSum (jjjj_check_yaku t))

/-- `BASE_POINTS` of `jjjj.py` / `smalljj.py` as a partial map from fan. -/
def jjjj_BASE_POINTS : Nat → Option (Nat × Nat) := fun fan =>
  match fan with
  | 1 => some (1000, 1000)
  | 2 => some (2000, 2000)
  | 3 => some (3900, 5800)
  | 4 => some (7700, 7700)
  | 5 => some (8000, 8000)
  | 6 => some (12000, 12000)
  | 7 => some (16000, 16000)
  | 8 => some (16000, 16000)
  | 10 => some (16000, 16000)
  | 13 => some (16000, 16000)
  | _ => none

/-- `get_points(fan, is_tsumo)` of `jjjj.py` / `smalljj.py`: fan 0 gives 0,
a fan present in the table is looked up, everything else falls back to the
entry for 13. -/
def jjjj_get_points (fan : Nat) (isTsumo : Bool) : Nat :=
  if fan = 0 then 0
  else
    match jjjj_BASE_POINTS fan with
    | some pts => if isTsumo then pts.1 else pts.2
    | none =>
      match jjjj_BASE_POINTS 13 with
      | some pts => if isTsumo then pts.1 else pts.2
      | none => 0

/-- The tile-count gate guarding every call of `jjjj.py`'s `calculate_fan`
(`MahjongGUI.calculate`: `if total_tiles != 14: self._show_tile_error(...);
return`): evaluation of a hand whose total is not 14 stops with the
wrong-tile-count error before `calculate_fan` runs; the error carries the
offending total. -/
def jjjj_evaluate (t : Tiles) : Except Nat (List (Yaku × Nat) × Nat) :=
  if ¬ totalCount t = 14 then Except.error (totalCount t)
  else Except.ok (jjjj_calculate_fan t)

/-! ### `jonjonjon.py` point table -/

/-- `BASE_POINTS` of `jonjonjon.py`; unlike the other variants it has explicit
entries above 13 (15, 18 and 20). -/
def jonjonjon_BASE_POINTS : Nat → Option (Nat × Nat) := fun fan =>
  match fan with
  | 0 => some (1000, 1000)
  | 1 => some (1000, 1000)
  | 2 => some (2000, 2000)
  | 3 => some (3900, 5800)
  | 4 => some (7700, 7700)
  | 5 => some (8000, 8000)
  | 6 => some (12000, 12000)
  | 7 => some (16000, 16000)
  | 8 => some (16000, 16000)
  | 10 => some (16000, 16000)
  | 13 => some (16000, 16000)
  | 15 => some (24000, 24000)
  | 18 => some (32000, 32000)
  | 20 => some (48000, 48000)
  | _ => none

/-- `get_points(fan, is_tsumo)` of `jonjonjon.py` (lines 225-237): fan 0 gives
0; a fan present in the table — including 15, 18, 20 — is looked up; any other
fan at least 13 falls back to the entry for 13; anything else gives 0. -/
def jonjonjon_get_points (fan : Nat) (isTsumo : Bool) : Nat :=
  if fan = 0 then 0
  else
    match jonjonjon_BASE_POINTS fan with
    | some pts => if isTsumo then pts.1 else pts.2
    | none =>
      if 13 ≤ fan then
        match jonjonjon_BASE_POINTS 13 with
        | some pts => if isTsumo then pts.1 else pts.2
        | none => 0
      else 0

/-! ### `smalljj.py` pattern checks used by the claims -/

/-- `_check_big_three_dragons(counts)` of `smalljj.py`: keyed on
`('z', d)` — only honor-suit dragon triplets qualify. -/
def smalljj_check_big_three_dragons (t : Tiles) : Bool :=
  ([5, 6, 7].countP (fun d => decide (3 ≤ tileCount t (Suit.z, d)))) == 3

/-- The 13 terminal/honor tiles, in the order `smalljj.py`'s `_check_kokushi`
lists them. -/
def smalljj_yaochuuhai : List (Suit × Nat) :=
  [(Suit.m, 1), (Suit.m, 9), (Suit.p, 1), (Suit.p, 9), (Suit.s, 1), (Suit.s, 9),
    (Suit.z, 1), (Suit.z, 2), (Suit.z, 3), (Suit.z, 4), (Suit.z, 5), (Suit.z, 6),
    (Suit.z, 7)]

/-- `_check_kokushi(tiles)` of `smalljj.py`: every one of the 13 tiles present,
the yaochuu tiles total 14, and the hand has exactly 13 distinct keys (so the
14th tile duplicates one of the 13). -/
def smalljj_check_kokushi (t : Tiles) : Bool :=
  smalljj_yaochuuhai.all (fun k => decide (1 ≤ tileCount t k)) &&
    ((smalljj_yaochuuhai.map (fun k => tileCount t k)).sum == 14) &&
    ((tileKeys t).length == 13)

/-- `_is_valid_winning_pattern(tiles)` of `smalljj.py`; its body is identical
to `jjjj.py`'s except that the pair candidates are collected in a `set`
instead of a dict, which has the same keys. -/
def smalljj_is_valid_winning_pattern (t : Tiles) : Bool :=
  if ¬ (tileList t).length = 14 then false
  else
    (pairCandidates t).any (fun k =>
      jjjj_check_melds_valid (eraseTile (eraseTile (copyTiles t) k) k))

/-! ### `lebron.py`: yakuman checks, meld enumeration, per-split evaluation -/

/-- The 13 terminal/honor tiles as listed in `lebron.py`'s `_check_yakuman`. -/
def lebron_yao : List (Suit × Nat) :=
  [(Suit.m, 1), (Suit.m, 9), (Suit.p, 1), (Suit.p, 9), (Suit.s, 1), (Suit.s, 9),
    (Suit.z, 1), (Suit.z, 2), (Suit.z, 3), (Suit.z, 4), (Suit.z, 5), (Suit.z, 6),
    (Suit.z, 7)]

/-- `_check_yakuman(tiles)` of `lebron.py` (lines 261-311).  Note the kokushi
condition: every one of the 13 tiles present and 14 tiles in total — nothing
requires the 14th tile to be one of the 13. -/
def lebron_check_yakuman (t : Tiles) : List (Yaku × Nat) :=
  if lebron_yao.all (fun k => decide (1 ≤ tileCount t k)) &&
      (((tileKeys t).map (fun k => tileCount t k)).sum == 14) then
    [(Yaku.kokushi, 13)]
  else if numericSuits.any (fun su =>
      ((t.get su).length == 14) &&
        (sortNat (t.get su) == [1, 1, 1, 2, 3, 4, 5, 6, 7, 8, 9, 9, 9])) then
    [(Yaku.churen, 13)]
  else if t.z.length == 14 then [(Yaku.tsuiso, 13)]
  else if (tileList t).all (fun k =>
      (k.1 == Suit.s && (k.2 == 2 || k.2 == 3 || k.2 == 4 || k.2 == 6 || k.2 == 8)) ||
        (k.1 == Suit.z && k.2 == 6)) then
    [(Yaku.ryuiso, 13)]
  else
    (if (tileKeys t).countP (fun k =>
          decide (3 ≤ tileCount t k) && k.1 == Suit.z &&
            (k.2 == 5 || k.2 == 6 || k.2 == 7)) == 3 then
      [(Yaku.daisangen, 13)] else []) ++
    (if (tileKeys t).countP (fun k =>
          decide (3 ≤ tileCount t k) && k.1 == Suit.z &&
            (k.2 == 1 || k.2 == 2 || k.2 == 3 || k.2 == 4)) == 4 then
      [(Yaku.daisushi, 13)] else []) ++
    (if (tileKeys t).countP (fun k => decide (3 ≤ tileCount t k)) == 4 then
      [(Yaku.suanko, 13)] else [])

/-- `sum(tiles[s].count(n) == 2 for s in tiles for n in set(tiles[s]))`,
the seven-pairs counter of `lebron.py`'s `calculate_fan`. -/
def lebron_pair_count (t : Tiles) : Nat :=
  (tileKeys t).countP (fun k => tileCount t k == 2)

/-- `next(s for s in tiles if tiles[s])`, in dict insertion order. -/
def firstNonEmptySuit (t : Tiles) : Option Suit :=
  if t.m = [] then
    if t.p = [] then
      if t.s = [] then
        if t.z = [] then none else some Suit.z
      else some Suit.s
    else some Suit.p
  else some Suit.m

/-- `_get_melds_recursive(tiles)` of `lebron.py`: every way to partition the
remaining tiles into melds, trying a triplet of the first tile and then a
sequence starting at it.  Fuel-structural like `tryFormMeldsF`; every
recursive call removes three tiles, so fuel `totalCount + 1` suffices
(theorem `C9_search_termination`). -/
def getMeldsRecF : Nat → Tiles → Option (List (List Meld))
  | 0, _ => none
  | fuel + 1, t =>
    if totalCount t = 0 then some [[]]
    else
      match firstNonEmptySuit t with
      | none => none
      | some fs =>
        match (t.get fs).head? with
        | none => none
        | some fv =>
          match
            (if 3 ≤ (t.get fs).count fv then
              match getMeldsRecF fuel
                  (eraseTile (eraseTile (eraseTile t (fs, fv)) (fs, fv)) (fs, fv)) with
              | none => none
              | some rs => some (rs.map (fun r => (MeldType.triplet, fs, fv) :: r))
            else some []),
            (if fs ≠ Suit.z ∧ fv ≤ 7 ∧ (fv + 1) ∈ t.get fs ∧ (fv + 2) ∈ t.get fs then
              match getMeldsRecF fuel
                  (eraseTile (eraseTile (eraseTile t (fs, fv)) (fs, fv + 1)) (fs, fv + 2)) with
              | none => none
              | some rs => some (rs.map (fun r => (MeldType.sequence, fs, fv) :: r))
            else some []) with
          | some a, some b => some (a ++ b)
          | _, _ => none

def lebron_get_melds (t : Tiles) : List (List Meld) :=
  (getMeldsRecF (totalCount t + 1) t).getD []

/-- `_analyze_hand(tiles)` of `lebron.py`: for every candidate pair, sort a
copy of the hand, remove the pair from the copy, and enumerate the meld
partitions of the 12 remaining tiles. -/
def lebron_analyze_hand (t : Tiles) : List (List Meld × (Suit × Nat)) :=
  (pairCandidates t).flatMap (fun k =>
    (lebron_get_melds (eraseTile (eraseTile (sortTiles (copyTiles t)) k) k)).map
      (fun ms => (ms, k)))

/-- The per-split yaku evaluation inside `lebron.py`'s `calculate_fan`
(lines 119-247), in the source's append order. -/
def lebron_split_yaku (t : Tiles) (isTsumo isMenzen isRiichi : Bool)
    (melds : List Meld) (pr : Suit × Nat) : List (Yaku × Nat) :=
  (if isRiichi && isMenzen then [(Yaku.riichi, 1)] else []) ++
  (if isTsumo && isMenzen then [(Yaku.menzentsumo, 1)] else []) ++
  (if numericNonEmptyCount t = 1 then
    (if t.z.isEmpty then [(Yaku.qingyise, if isMenzen then 6 else 5)]
      else [(Yaku.hunyise, if isMenzen then 3 else 2)])
   else []) ++
  (melds.flatMap (fun md =>
    if md.1 == MeldType.triplet && md.2.1 == Suit.z then
      (if md.2.2 == 5 then [(Yaku.haku, 1)]
        else if md.2.2 == 6 then [(Yaku.hatsu, 1)]
        else if md.2.2 == 7 then [(Yaku.chun, 1)]
        else []) ++
      (if md.2.2 == 1 then [(Yaku.jikaze, 1)] else [])
    else [])) ++
  (if !(pr.1 == Suit.z || pr.2 == 1 || pr.2 == 9 ||
        melds.any (fun md =>
          md.2.1 == Suit.z ||
            (md.1 == MeldType.triplet && (md.2.2 == 1 || md.2.2 == 9)) ||
            (md.1 == MeldType.sequence && (md.2.2 == 1 || md.2.2 == 7)))) then
    [(Yaku.tanyao, 1)]
   else
    -- the chanta block: `is_all_yao_melds` is falsified by any non-terminal
    -- meld and, inside the same loop, by a non-yao pair
    if melds.all (fun md =>
        (md.2.1 == Suit.z ||
          (if md.1 == MeldType.triplet then md.2.2 == 1 || md.2.2 == 9
            else md.2.2 == 1 || md.2.2 == 7)) &&
        (pr.1 == Suit.z || pr.2 == 1 || pr.2 == 9)) then
      if melds.all (fun md => md.1 == MeldType.triplet) then
        (if pr.1 == Suit.z || melds.any (fun md => md.2.1 == Suit.z) then
          [(Yaku.honroto, 2)] else [])
      else
        (if pr.1 == Suit.z || melds.any (fun md => md.2.1 == Suit.z) then
          [(Yaku.chanta, 2)] else [(Yaku.junchan, 3)])
    else []) ++
  (if isMenzen && melds.all (fun md => md.1 == MeldType.sequence) &&
      !(pr.1 == Suit.z && (pr.2 == 5 || pr.2 == 6 || pr.2 == 7)) then
    [(Yaku.pinfu, 1)]
   else []) ++
  (if isMenzen then
    (if ((melds.filterMap (fun md =>
          if md.1 == MeldType.sequence then some (md.2.1, md.2.2) else none)).dedup.countP
        (fun k => decide (2 ≤ (melds.filterMap (fun md =>
          if md.1 == MeldType.sequence then some (md.2.1, md.2.2) else none)).count k))) == 2 then
      [(Yaku.ryanpeiko, 3)]
     else if ((melds.filterMap (fun md =>
          if md.1 == MeldType.sequence then some (md.2.1, md.2.2) else none)).dedup.countP
        (fun k => decide (2 ≤ (melds.filterMap (fun md =>
          if md.1 == MeldType.sequence then some (md.2.1, md.2.2) else none)).count k))) == 1 then
      [(Yaku.iipeiko, 1)]
     else [])
   else []) ++
  (if (melds.filterMap (fun md =>
        if md.1 == MeldType.sequence && md.2.1 == Suit.m then some md.2.2 else none)).any
      (fun v =>
        (melds.filterMap (fun md =>
          if md.1 == MeldType.sequence && md.2.1 == Suit.p then some md.2.2 else none)).contains v &&
        (melds.filterMap (fun md =>
          if md.1 == MeldType.sequence && md.2.1 == Suit.s then some md.2.2 else none)).contains v) then
    [(Yaku.sanshokudojun, 2)]
   else []) ++
  (if (melds.filterMap (fun md =>
        if md.1 == MeldType.triplet && md.2.1 == Suit.m then some md.2.2 else none)).any
      (fun v =>
        (melds.filterMap (fun md =>
          if md.1 == MeldType.triplet && md.2.1 == Suit.p then some md.2.2 else none)).contains v &&
        (melds.filterMap (fun md =>
          if md.1 == MeldType.triplet && md.2.1 == Suit.s then some md.2.2 else none)).contains v) then
    [(Yaku.sanshokudoko, 2)]
   else []) ++
  (numericSuits.flatMap (fun su =>
    if (melds.any (fun md =>
          md.1 == MeldType.sequence && md.2.1 == su && md.2.2 == 1)) &&
        (melds.any (fun md =>
          md.1 == MeldType.sequence && md.2.1 == su && md.2.2 == 4)) &&
        (melds.any (fun md =>
          md.1 == MeldType.sequence && md.2.1 == su && md.2.2 == 7)) then
      [(Yaku.ittsu, 2)]
    else [])) ++
  (if melds.all (fun md => md.1 == MeldType.triplet) then [(Yaku.toitoi, 2)] else []) ++
  (if 3 ≤ melds.countP (fun md => md.1 == MeldType.triplet) then [(Yaku.sananko, 2)] else []) ++
  (if (melds.countP (fun md =>
        md.1 == MeldType.triplet && md.2.1 == Suit.z &&
          (md.2.2 == 5 || md.2.2 == 6 || md.2.2 == 7))) = 2 ∧
      (pr.1 = Suit.z ∧ (pr.2 = 5 ∨ pr.2 = 6 ∨ pr.2 = 7)) then
    [(Yaku.shosangen, 2)]
   else [])

/-- The body of the best-split loop of `lebron.py`'s `calculate_fan`:
`if current_fan > best_fan: best_yaku_list, best_fan = current_yaku, current_fan`. -/
def lebron_best_step (t : Tiles) (isTsumo isMenzen isRiichi : Bool)
    (b : List (Yaku × Nat) × Nat) (st : List Meld × (Suit × Nat)) :
    List (Yaku × Nat) × Nat :=
  if b.2 < yakuSum (lebron_split_yaku t isTsumo isMenzen isRiichi st.1 st.2) then
    (lebron_split_yaku t isTsumo isMenzen isRiichi st.1 st.2,
      yakuSum (lebron_split_yaku t isTsumo isMenzen isRiichi st.1 st.2))
  else b

/-- `calculate_fan(tiles, is_tsumo, is_menzen, is_riichi)` of `lebron.py`:
raise on a wrong tile count (the error carries the offending total); return
any yakuman alone; seed the result with seven pairs; evaluate every standard
split and keep the maximum; fall back to the `('無役', 0)` sentinel. -/
def lebron_calculate_fan (t : Tiles) (isTsumo isMenzen isRiichi : Bool) :
    Except Nat (List (Yaku × Nat) × Nat) :=
  if ¬ totalCount t = 14 then Except.error (totalCount t)
  else if ¬ lebron_check_yakuman t = [] then
    Except.ok (lebron_check_yakuman t, yakuSum (lebron_check_yakuman t))
  else if lebron_analyze_hand t = [] ∧
      ¬ (if lebron_pair_count t = 7 then [(Yaku.chiitoitsu, 2)] else []).any
        (fun y => y.1 == Yaku.chiitoitsu) then
    Except.ok ([(Yaku.muyaku, 0)], 0)
  else if ((lebron_analyze_hand t).foldl
        (lebron_best_step t isTsumo isMenzen isRiichi)
        ((if lebron_pair_count t = 7 then [(Yaku.chiitoitsu, 2)] else []),
          yakuSum (if lebron_pair_count t = 7 then [(Yaku.chiitoitsu, 2)] else []))).2 = 0 ∧
      ((lebron_analyze_hand t).foldl
        (lebron_best_step t isTsumo isMenzen isRiichi)
        ((if lebron_pair_count t = 7 then [(Yaku.chiitoitsu, 2)] else []),
          yakuSum (if lebron_pair_count t = 7 then [(Yaku.chiitoitsu, 2)] else []))).1 = [] then
    Except.ok ([(Yaku.muyaku, 0)], 0)
  else
    Except.ok ((lebron_analyze_hand t).foldl
      (lebron_best_step t isTsumo isMenzen isRiichi)
      ((if lebron_pair_count t = 7 then [(Yaku.chiitoitsu, 2)] else []),
        yakuSum (if lebron_pair_count t = 7 then [(Yaku.chiitoitsu, 2)] else [])))

/-! ### State-threaded decompositions (frame property)

The three functions below re-state the decompositions with the caller's hand
threaded through to the result, mirroring the source's discipline: every
destructive `list.remove` is applied to `tiles_copy` (a fresh per-candidate
copy built by slicing each suit list), so the input dict the caller passed is
returned untouched. -/

def jjjj_is_valid_winning_pattern_st (t : Tiles) : Bool × Tiles :=
  ((if ¬ (tileList t).length = 14 then false
    else
      (pairCandidates t).any (fun k =>
        jjjj_check_melds_valid (eraseTile (eraseTile (copyTiles t) k) k))), t)

def smalljj_is_valid_winning_pattern_st (t : Tiles) : Bool × Tiles :=
  ((if ¬ (tileList t).length = 14 then false
    else
      (pairCandidates t).any (fun k =>
        jjjj_check_melds_valid (eraseTile (eraseTile (copyTiles t) k) k))), t)

def lebron_analyze_hand_st (t : Tiles) : List (List Meld × (Suit × Nat)) × Tiles :=
  ((pairCandidates t).flatMap (fun k =>
    (lebron_get_melds (eraseTile (eraseTile (sortTiles (copyTiles t)) k) k)).map
      (fun ms => (ms, k))), t)

/-- Every rank stored in the hand lies in `[1, 9]`. -/
def ranksInRange (t : Tiles) : Prop :=
  ∀ su : Suit, ∀ n ∈ t.get su, 1 ≤ n ∧ n ≤ 9

/-- The invariant claimed of a `lebron.py` evaluation result: when it is not
the wrong-count error, the total equals the sum of the listed values and the
list is non-empty. -/
def matchResultInv (e : Except Nat (List (Yaku × Nat) × Nat)) : Prop :=
  match e with
  | Except.error _ => True
  | Except.ok r => r.2 = yakuSum r.1 ∧ 0 < r.1.length

/-! ### Generic counting lemmas -/

lemma sum_map_add_nat {α : Type} (f g : α → Nat) :
    ∀ (l : List α), (l.map (fun x => f x + g x)).sum = (l.map f).sum + (l.map g).sum := by
  intro l
  induction l with
  | nil => simp
  | cons a l ih => simp [ih]; omega

lemma sum_map_ite_eq_count {α : Type} [DecidableEq α] (a : α) :
    ∀ (K : List α), (K.map (fun x => if x = a then 1 else 0)).sum = K.count a := by
  intro K
  induction K with
  | nil => simp
  | cons b K ih =>
    by_cases h : b = a
    · subst h; simp [List.count_cons, ih]; omega
    · simp [List.count_cons, ih, h, Ne.symm h]

/-- Summing the multiplicities of the distinct elements recovers the length. -/
lemma sum_count_dedup {α : Type} [DecidableEq α] :
    ∀ (L : List α), (L.dedup.map (fun x => L.count x)).sum = L.length := by
  intro L
  induction L with
  | nil => simp
  | cons a L ih =>
    by_cases h : a ∈ L
    · rw [List.dedup_cons_of_mem h]
      have hmap : (L.dedup.map fun x => (a :: L).count x) =
          (L.dedup.map fun x => L.count x + (if x = a then 1 else 0)) := by
        apply List.map_congr_left
        intro x _
        rw [List.count_cons]
        by_cases hxa : x = a
        · subst hxa; simp
        · simp [hxa, Ne.symm hxa]
      rw [hmap, sum_map_add_nat, ih, sum_map_ite_eq_count, List.count_dedup]
      simp [h]
    · rw [List.dedup_cons_of_not_mem h]
      simp only [List.map_cons, List.sum_cons]
      have hmap : (L.dedup.map fun x => (a :: L).count x) =
          (L.dedup.map fun x => L.count x) := by
        apply List.map_congr_left
        intro x hx
        have hxa : x ≠ a := by
          intro he; exact h (he ▸ List.mem_dedup.1 hx)
        rw [List.count_cons]
        simp [Ne.symm hxa]
      rw [hmap, ih, List.count_cons, List.count_eq_zero_of_not_mem h]
      simp [Nat.add_comm]

lemma twice_countP_le_sum {α : Type} (c : α → Nat) :
    ∀ (K : List α), (∀ x ∈ K, 1 ≤ c x) →
      2 * K.countP (fun x => c x == 2) ≤ (K.map c).sum := by
  intro K
  induction K with
  | nil => simp
  | cons b K ih =>
    intro h
    have hb := h b (List.mem_cons_self b K)
    have ihh := ih (fun x hx => h x (List.mem_cons_of_mem _ hx))
    rw [List.countP_cons, List.map_cons, List.sum_cons]
    by_cases hc : c b = 2
    · simp only [hc]
      simp
      omega
    · have : ((c b == 2) = false) := by simp [hc]
      simp only [this]
      simp
      omega

lemma counts_all_two {α : Type} (c : α → Nat) :
    ∀ (K : List α), (∀ x ∈ K, 1 ≤ c x) →
      (K.map c).sum = 2 * K.countP (fun x => c x == 2) → ∀ x ∈ K, c x = 2 := by
  intro K
  induction K with
  | nil => intro _ _ x hx; cases hx
  | cons b K ih =>
    intro h hsum x hx
    have hb := h b (List.mem_cons_self b K)
    have hK : ∀ y ∈ K, 1 ≤ c y := fun y hy => h y (List.mem_cons_of_mem _ hy)
    have hle := twice_countP_le_sum c K hK
    rw [List.map_cons, List.sum_cons, List.countP_cons] at hsum
    by_cases hcb : c b = 2
    · have hcb' : ((c b == 2) = true) := by simp [hcb]
      rw [hcb'] at hsum
      simp at hsum
      have hsum2 : (K.map c).sum = 2 * K.countP (fun x => c x == 2) := by omega
      rcases List.mem_cons.1 hx with he | hm
      · exact he ▸ hcb
      · exact ih hK hsum2 x hm
    · have hcb' : ((c b == 2) = false) := by simp [hcb]
      rw [hcb'] at hsum
      simp at hsum
      omega

/-! ### C1: seven pairs in `jjjj.py` -/

lemma rankList_length (t : Tiles) : (rankList t).length = totalCount t := by
  simp only [rankList, List.length_append, totalCount]

/-- In a 14-tile hand passing `jjjj.py`'s seven-pairs test, every rank present
occurs exactly twice. -/
lemma seven_pairs_counts_two (t : Tiles) (h14 : totalCount t = 14)
    (h7 : jjjj_check_seven_pairs t = true) : ∀ r ∈ rankKeys t, rankCount t r = 2 := by
  have hpos : ∀ r ∈ rankKeys t, 1 ≤ rankCount t r := by
    intro r hr
    exact List.count_pos_iff.2 (List.mem_dedup.1 hr)
  have hc : (rankKeys t).countP (fun r => rankCount t r == 2) = 7 := by
    unfold jjjj_check_seven_pairs at h7
    simpa using h7
  have hsum : ((rankKeys t).map (fun r => rankCount t r)).sum = 14 := by
    have h := sum_count_dedup (rankList t)
    rw [rankList_length, h14] at h
    exact h
  exact counts_all_two _ _ hpos (by rw [hsum, hc])

lemma rank_not_three (t : Tiles) (h : ∀ r ∈ rankKeys t, rankCount t r = 2)
    (d : Nat) : ¬ 3 ≤ rankCount t d := by
  intro hge
  have hpos : 0 < rankCount t d := by omega
  have hmem : d ∈ rankList t := by
    unfold rankCount at hpos
    exact List.count_pos_iff.1 hpos
  have := h d (List.mem_dedup.2 hmem)
  omega

lemma big3_false_of_pairs (t : Tiles) (h : ∀ r ∈ rankKeys t, rankCount t r = 2) :
    jjjj_check_big_three_dragons t = false := by
  unfold jjjj_check_big_three_dragons
  have h5 := rank_not_three t h 5
  have h6 := rank_not_three t h 6
  have h7 := rank_not_three t h 7
  simp [List.countP_cons, h5, h6, h7]

lemma dragons_nil_of_pairs (t : Tiles) (h : ∀ r ∈ rankKeys t, rankCount t r = 2) :
    jjjj_dragon_yaku t = [] := by
  unfold jjjj_dragon_yaku
  rw [if_neg (rank_not_three t h 5), if_neg (rank_not_three t h 6),
    if_neg (rank_not_three t h 7)]
  rfl

lemma base_result_no_chiitoitsu (t : Tiles) :
    (Yaku.chiitoitsu, 2) ∉ jjjj_base_result t := by
  unfold jjjj_base_result jjjj_base_list jjjj_dragon_yaku
  split_ifs <;> simp_all

/-- C1 (amended): for a 14-tile hand, `jjjj.py`'s evaluation returns exactly
the Seven-Pairs pattern at value 2 if and only if the hand does not occupy
exactly one numeric suit (otherwise a flush short-circuits first) and the
rank-only counts — suits conflated, as `_count_tiles` builds them — have
exactly seven rank keys of multiplicity exactly 2. -/
theorem C1_seven_pairs_characterisation (t : Tiles) (h14 : totalCount t = 14) :
    jjjj_check_yaku t = [(Yaku.chiitoitsu, 2)] ↔
      (¬ numericNonEmptyCount t = 1 ∧ jjjj_check_seven_pairs t = true) := by
  constructor
  · intro heq
    unfold jjjj_check_yaku at heq
    split_ifs at heq with h1 h2 h3 h4
    · simp at heq
    · simp at heq
    · simp at heq
    · refine ⟨?_, h4⟩
      intro hcnt
      by_cases hz : t.z = []
      · exact h1 ⟨hcnt, hz⟩
      · exact h2 ⟨hcnt, hz⟩
    · exact absurd (heq ▸ List.mem_singleton.2 rfl) (base_result_no_chiitoitsu t)
  · rintro ⟨hne, hsp⟩
    have hall := seven_pairs_counts_two t h14 hsp
    have hb3 : ¬ jjjj_check_big_three_dragons t = true := by
      rw [big3_false_of_pairs t hall]; simp
    unfold jjjj_check_yaku
    rw [if_neg (fun hc => hne hc.1), if_neg (fun hc => hne hc.1), if_neg hb3,
      if_pos hsp, dragons_nil_of_pairs t hall]
    rfl

/-- Counterexample to C1 as stated: seven one-suit pairs are evaluated as the
full flush, not as Seven Pairs, and a two-suit hand with no pair at all (each
`(suit, rank)` key occurring once, each rank twice across the two suits) is
evaluated as Seven Pairs. -/
theorem C1_counterexample :
    jjjj_check_yaku ⟨[1, 1, 2, 2, 3, 3, 4, 4, 5, 5, 6, 6, 7, 7], [], [], []⟩ =
        [(Yaku.qingyise, 6)] ∧
      jjjj_check_yaku ⟨[1, 2, 3, 4, 5, 6, 7], [1, 2, 3, 4, 5, 6, 7], [], []⟩ =
        [(Yaku.chiitoitsu, 2)] := by
  exact ⟨by decide, by decide⟩

theorem C1_witness :
    totalCount ⟨[1, 2, 3, 4, 5, 6, 7], [1, 2, 3, 4, 5, 6, 7], [], []⟩ = 14 ∧
      (jjjj_check_yaku ⟨[1, 2, 3, 4, 5, 6, 7], [1, 2, 3, 4, 5, 6, 7], [], []⟩ =
          [(Yaku.chiitoitsu, 2)] ↔
        (¬ numericNonEmptyCount ⟨[1, 2, 3, 4, 5, 6, 7], [1, 2, 3, 4, 5, 6, 7], [], []⟩ = 1 ∧
          jjjj_check_seven_pairs ⟨[1, 2, 3, 4, 5, 6, 7], [1, 2, 3, 4, 5, 6, 7], [], []⟩ = true)) :=
  ⟨by decide, C1_seven_pairs_characterisation _ (by decide)⟩

/-! ### C2: Thirteen Orphans -/

/-- C2 evaluation at the failing input: the 13 terminal/honor tiles plus a
fifth m-tile (a middle tile that duplicates none of the 13).  `lebron.py`
reports the Thirteen-Orphans yakuman at value 13 for this hand, for either
flag setting, while `smalljj.py`'s `_check_kokushi` rejects it. -/
theorem C2_code_evaluation :
    lebron_calculate_fan ⟨[1, 5, 9], [1, 9], [1, 9], [1, 2, 3, 4, 5, 6, 7]⟩ true true false =
        Except.ok ([(Yaku.kokushi, 13)], 13) ∧
      lebron_calculate_fan ⟨[1, 5, 9], [1, 9], [1, 9], [1, 2, 3, 4, 5, 6, 7]⟩ false false true =
        Except.ok ([(Yaku.kokushi, 13)], 13) ∧
      smalljj_check_kokushi ⟨[1, 5, 9], [1, 9], [1, 9], [1, 2, 3, 4, 5, 6, 7]⟩ = false := by
  exact ⟨rfl, rfl, by decide⟩

/-! ### C3: big three dragons -/

/-- C3 evaluation at the failing input: a hand with triplets of ranks 5, 6, 7
spread over the three numeric suits and no dragon tile at all.  `jjjj.py`
reports 大三元 at value 13 (its `_count_tiles` keys by bare rank), while
`smalljj.py`'s `(suit, rank)`-keyed check rejects it. -/
theorem C3_code_evaluation :
    jjjj_check_yaku ⟨[1, 1, 5, 5, 5], [2, 3, 4, 6, 6, 6], [7, 7, 7], []⟩ =
        [(Yaku.daisangen, 13)] ∧
      smalljj_check_big_three_dragons ⟨[1, 1, 5, 5, 5], [2, 3, 4, 6, 6, 6], [7, 7, 7], []⟩ =
        false := by
  exact ⟨by decide, by decide⟩

/-! ### C4: the point tiers at and above 13 in `jonjonjon.py` -/

lemma jonjonjon_BASE_POINTS_ge21 (n : Nat) : jonjonjon_BASE_POINTS (n + 21) = none := rfl

lemma jonjonjon_terminal_points (v : Nat) (b : Bool) (h13 : 13 ≤ v)
    (h15 : v ≠ 15) (h18 : v ≠ 18) (h20 : v ≠ 20) :
    jonjonjon_get_points v b = 16000 := by
  by_cases hle : v ≤ 20
  · interval_cases v
    · cases b <;> rfl
    · cases b <;> rfl
    · exact absurd rfl h15
    · cases b <;> rfl
    · cases b <;> rfl
    · exact absurd rfl h18
    · cases b <;> rfl
    · exact absurd rfl h20
  · have hv : v = (v - 21) + 21 := by omega
    rw [hv]
    unfold jonjonjon_get_points
    rw [if_neg (by omega), jonjonjon_BASE_POINTS_ge21]
    simp only []
    rw [if_pos (by omega)]
    cases b <;> rfl

/-- C4 (amended): in `jonjonjon.py`'s table a value at least 13 that is not
one of the explicit keys 15, 18, 20 is awarded the fixed 13-tier (16000
points, either win mode); the keys 15, 18 and 20 are genuine higher tiers, so
the claim's "all values ≥ 13 map identically" fails exactly there. -/
theorem C4_terminal_tier (v1 v2 : Nat) (b : Bool) (h1 : 13 ≤ v1) (h2 : 13 ≤ v2)
    (h3 : v1 ≠ 15) (h4 : v1 ≠ 18) (h5 : v1 ≠ 20)
    (h6 : v2 ≠ 15) (h7 : v2 ≠ 18) (h8 : v2 ≠ 20) :
    jonjonjon_get_points v1 b = jonjonjon_get_points v2 b := by
  rw [jonjonjon_terminal_points v1 b h1 h3 h4 h5,
    jonjonjon_terminal_points v2 b h2 h6 h7 h8]

/-- Counterexample to C4 as stated: 13 and 15 are both at least 13, yet the
lookup awards them different points (16000 vs 24000 self-draw). -/
theorem C4_counterexample :
    13 ≤ (13 : Nat) ∧ 13 ≤ (15 : Nat) ∧
      ¬ jonjonjon_get_points 15 true = jonjonjon_get_points 13 true := by
  decide

theorem C4_witness :
    jonjonjon_get_points 13 true = jonjonjon_get_points 14 true :=
  C4_terminal_tier 13 14 true (by decide) (by decide) (by decide) (by decide)
    (by decide) (by decide) (by decide) (by decide)

/-! ### C5: wrong tile count -/

/-- C5: on any hand whose total is not 14 the `jjjj.py` evaluation pipeline
(count gate ahead of `calculate_fan`) and `lebron.py`'s `calculate_fan` itself
both stop with the wrong-tile-count error carrying the offending total, so no
pattern is reported. -/
theorem C5_wrong_tile_count (t : Tiles) (b1 b2 b3 : Bool)
    (h : ¬ totalCount t = 14) :
    jjjj_evaluate t = Except.error (totalCount t) ∧
      lebron_calculate_fan t b1 b2 b3 = Except.error (totalCount t) := by
  constructor
  · unfold jjjj_evaluate
    rw [if_pos h]
  · unfold lebron_calculate_fan
    rw [if_pos h]

theorem C5_witness :
    ¬ totalCount ⟨[1, 2, 3, 4, 5, 6, 7, 8, 9], [1, 2, 3], [1], []⟩ = 14 ∧
      (jjjj_evaluate ⟨[1, 2, 3, 4, 5, 6, 7, 8, 9], [1, 2, 3], [1], []⟩ =
          Except.error (totalCount ⟨[1, 2, 3, 4, 5, 6, 7, 8, 9], [1, 2, 3], [1], []⟩) ∧
        lebron_calculate_fan ⟨[1, 2, 3, 4, 5, 6, 7, 8, 9], [1, 2, 3], [1], []⟩ true true false =
          Except.error (totalCount ⟨[1, 2, 3, 4, 5, 6, 7, 8, 9], [1, 2, 3], [1], []⟩)) :=
  ⟨by decide, C5_wrong_tile_count _ true true false (by decide)⟩

/-! ### C7: full flush and its points -/

/-- C7: a 14-tile hand occupying exactly one numeric suit with no honors and
admitting a standard pair-plus-four-melds split is evaluated as exactly the
full flush at value 6, and the table awards value 6 the 12000 self-draw
points. -/
theorem C7_full_flush (t : Tiles) (h14 : totalCount t = 14)
    (hone : numericNonEmptyCount t = 1) (hz : t.z = [])
    (hdec : jjjj_is_valid_winning_pattern t = true) :
    jjjj_check_yaku t = [(Yaku.qingyise, 6)] ∧ jjjj_get_points 6 true = 12000 := by
  refine ⟨?_, rfl⟩
  unfold jjjj_check_yaku
  rw [if_pos ⟨hone, hz⟩]

theorem C7_witness :
    jjjj_is_valid_winning_pattern ⟨[1, 1, 2, 2, 3, 3, 4, 5, 6, 7, 8, 9, 9, 9], [], [], []⟩ = true ∧
      (jjjj_check_yaku ⟨[1, 1, 2, 2, 3, 3, 4, 5, 6, 7, 8, 9, 9, 9], [], [], []⟩ =
          [(Yaku.qingyise, 6)] ∧
        jjjj_get_points 6 true = 12000) :=
  ⟨by decide, C7_full_flush _ (by decide) (by decide) (by decide) (by decide)⟩

/-! ### C10: evaluation does not mutate the hand -/

/-- C10: the decompositions, embedded with the caller's hand threaded to the
result (mirroring the source, which applies every `remove` to a fresh
per-candidate copy), return the input hand unchanged and compute the same
answers as the plain functions; hence repeated evaluation sees the same
hand. -/
theorem C10_no_mutation (t : Tiles) :
    (jjjj_is_valid_winning_pattern_st t).2 = t ∧
      (jjjj_is_valid_winning_pattern_st t).1 = jjjj_is_valid_winning_pattern t ∧
      (smalljj_is_valid_winning_pattern_st t).2 = t ∧
      (smalljj_is_valid_winning_pattern_st t).1 = smalljj_is_valid_winning_pattern t ∧
      (lebron_analyze_hand_st t).2 = t ∧
      (lebron_analyze_hand_st t).1 = lebron_analyze_hand t :=
  ⟨rfl, rfl, rfl, rfl, rfl, rfl⟩

/-! ### C6: rank validation in `parse_hand` -/

lemma get_addNum (t : Tiles) (su su2 : Suit) (n : Nat) :
    (t.addNum su n).get su2 = if su2 = su then t.get su2 ++ [n] else t.get su2 := by
  cases su <;> cases su2 <;> simp [Tiles.addNum, Tiles.get]

lemma addNum_range (t : Tiles) (su : Suit) (n : Nat) (h : ranksInRange t)
    (hn : 1 ≤ n ∧ n ≤ 9) : ranksInRange (t.addNum su n) := by
  intro su2 x hx
  rw [get_addNum] at hx
  by_cases hsu : su2 = su
  · rw [if_pos hsu] at hx
    rcases List.mem_append.1 hx with hm | hm
    · exact h su2 x hm
    · rw [List.mem_singleton.1 hm]
      exact hn
  · rw [if_neg hsu] at hx
    exact h su2 x hx

lemma jjjj_addNums_range :
    ∀ (ns : List Nat) (t : Tiles) (su : Suit) (t2 : Tiles), ranksInRange t →
      jjjj_addNums t su ns = Except.ok t2 → ranksInRange t2 := by
  intro ns
  induction ns with
  | nil =>
    intro t su t2 h heq
    exact (Except.ok.inj heq) ▸ h
  | cons n ns ih =>
    intro t su t2 h heq
    unfold jjjj_addNums at heq
    by_cases hr : 1 ≤ n ∧ n ≤ 9
    · rw [if_pos hr] at heq
      exact ih _ su t2 (addNum_range t su n h hr) heq
    · rw [if_neg hr] at heq
      cases heq

lemma jjjj_parse_loop_range :
    ∀ (fuel : Nat) (cs : List Char) (acc t2 : Tiles), ranksInRange acc →
      jjjj_parse_loop fuel cs acc = Except.ok t2 → ranksInRange t2 := by
  intro fuel
  induction fuel with
  | zero =>
    intro cs acc t2 h heq
    cases heq
  | succ fuel ih =>
    intro cs acc t2 h heq
    unfold jjjj_parse_loop at heq
    split at heq
    · exact (Except.ok.inj heq) ▸ h
    · split at heq
      · split at heq
        · exact (Except.ok.inj heq) ▸ h
        · cases heq
      · split at heq
        · split at heq
          · rename_i acc2 ha
            exact ih _ acc2 t2 (jjjj_addNums_range _ _ _ _ h ha) heq
          · cases heq
        · split at heq
          · cases heq
          · cases heq

lemma insertNat_mem (n a : Nat) :
    ∀ (l : List Nat), n ∈ insertNat a l ↔ n = a ∨ n ∈ l := by
  intro l
  induction l with
  | nil => simp [insertNat]
  | cons b l ih =>
    unfold insertNat
    split_ifs with h
    · simp
    · simp [ih]
      tauto

lemma sortNat_mem (n : Nat) : ∀ (l : List Nat), n ∈ sortNat l ↔ n ∈ l := by
  intro l
  induction l with
  | nil => simp [sortNat]
  | cons a l ih => simp [sortNat, insertNat_mem, ih]

lemma sortTiles_range (t : Tiles) (h : ranksInRange t) : ranksInRange (sortTiles t) := by
  intro su n hn
  apply h su
  cases su <;> simpa [sortTiles, Tiles.get, sortNat_mem] using hn

/-- C6 (amended): `jjjj.py`'s `parse_hand` validates ranks against `[1, 9]`
uniformly for every suit, the honor suit included; consequently every
successfully parsed hand holds only ranks in `[1, 9]` (honor ranks 8 and 9
are accepted rather than rejected, and `lebron.py`'s parser validates
nothing — see the counterexample). -/
theorem C6_parse_rank_validation (cs : List Char) (t : Tiles)
    (heq : jjjj_parse_hand cs = Except.ok t) :
    ∀ su : Suit, ∀ n ∈ t.get su, 1 ≤ n ∧ n ≤ 9 := by
  intro su n hn
  unfold jjjj_parse_hand at heq
  split at heq
  · cases heq
  · split at heq
    · rename_i t0 hp
      have h0 : ranksInRange (⟨[], [], [], []⟩ : Tiles) := by
        intro su2 x hx
        cases su2 <;> cases hx
      exact sortTiles_range t0 (jjjj_parse_loop_range _ _ _ _ h0 hp) su n
        ((Except.ok.inj heq) ▸ hn)
    · cases heq

/-- Counterexample to C6 as stated: honor tiles of rank 8 and 9 are accepted
by `jjjj.py`'s parser, and `lebron.py`'s parser accepts even rank 0. -/
theorem C6_counterexample :
    jjjj_parse_hand ['8', '9', 'z'] = Except.ok ⟨[], [], [], [8, 9]⟩ ∧
      lebron_parse_hand ['0', 'm'] = Except.ok ⟨[0], [], [], []⟩ :=
  ⟨rfl, rfl⟩

theorem C6_witness :
    jjjj_parse_hand ['1', 'm'] = Except.ok ⟨[1], [], [], []⟩ ∧ (1 ≤ 1 ∧ 1 ≤ 9) :=
  ⟨rfl, C6_parse_rank_validation ['1', 'm'] ⟨[1], [], [], []⟩ rfl Suit.m 1 (by decide)⟩

/-! ### C8: total value is the sum, and the result list is never empty -/

lemma jjjj_check_yaku_length_pos (t : Tiles) : 0 < (jjjj_check_yaku t).length := by
  unfold jjjj_check_yaku jjjj_base_result
  split_ifs <;> simp_all [List.length_append, List.length_pos]

lemma lebron_fold_inv (t : Tiles) (b1 b2 b3 : Bool) :
    ∀ (l : List (List Meld × (Suit × Nat))) (init : List (Yaku × Nat) × Nat),
      init.2 = yakuSum init.1 →
      (l.foldl (lebron_best_step t b1 b2 b3) init).2 =
        yakuSum (l.foldl (lebron_best_step t b1 b2 b3) init).1 := by
  intro l
  induction l with
  | nil => intro init h; simpa using h
  | cons st l ih =>
    intro init h
    rw [List.foldl_cons]
    apply ih
    unfold lebron_best_step
    split_ifs with hc
    · rfl
    · exact h

lemma lebron_tail_inv (t : Tiles) (b1 b2 b3 : Bool) (init : List (Yaku × Nat)) :
    matchResultInv (
      if lebron_analyze_hand t = [] ∧
          ¬ (init.any fun y => y.1 == Yaku.chiitoitsu) then
        Except.ok ([(Yaku.muyaku, 0)], 0)
      else if ((lebron_analyze_hand t).foldl (lebron_best_step t b1 b2 b3)
            (init, yakuSum init)).2 = 0 ∧
          ((lebron_analyze_hand t).foldl (lebron_best_step t b1 b2 b3)
            (init, yakuSum init)).1 = [] then
        Except.ok ([(Yaku.muyaku, 0)], 0)
      else
        Except.ok ((lebron_analyze_hand t).foldl (lebron_best_step t b1 b2 b3)
          (init, yakuSum init))) := by
  split
  · exact ⟨rfl, by decide⟩
  · split
    · exact ⟨rfl, by decide⟩
    · rename_i h4
      have hinv := lebron_fold_inv t b1 b2 b3 (lebron_analyze_hand t)
        (init, yakuSum init) rfl
      refine ⟨hinv, ?_⟩
      by_contra hlen
      have hnil : ((lebron_analyze_hand t).foldl (lebron_best_step t b1 b2 b3)
          (init, yakuSum init)).1 = [] :=
        List.length_eq_zero.1 (by omega)
      refine h4 ⟨?_, hnil⟩
      rw [hinv, hnil]
      rfl

/-- C8: for every hand and flag setting, `jjjj.py`'s `calculate_fan` returns
a total equal to the sum of the listed pattern values and a non-empty list
(the `('無役', 0)` sentinel when nothing matched), and `lebron.py`'s
`calculate_fan` satisfies the same invariant whenever it returns a result
rather than the wrong-count error. -/
theorem C8_total_is_sum_and_nonempty (t : Tiles) (b1 b2 b3 : Bool) :
    (jjjj_calculate_fan t).2 = yakuSum (jjjj_calculate_fan t).1 ∧
      0 < (jjjj_calculate_fan t).1.length ∧
      matchResultInv (lebron_calculate_fan t b1 b2 b3) := by
  refine ⟨rfl, jjjj_check_yaku_length_pos t, ?_⟩
  unfold lebron_calculate_fan
  split
  · exact trivial
  · split
    · rename_i h2
      exact ⟨rfl, List.length_pos.2 h2⟩
    · by_cases hpc : lebron_pair_count t = 7
      · simp only [if_pos hpc]
        exact lebron_tail_inv t b1 b2 b3 [(Yaku.chiitoitsu, 2)]
      · simp only [if_neg hpc]
        exact lebron_tail_inv t b1 b2 b3 []

/-! ### C9: termination of the meld searches -/

lemma erase3_length (l : List (Suit × Nat)) (k : Suit × Nat)
    (h : 3 ≤ l.count k) :
    (((l.erase k).erase k).erase k).length + 3 = l.length := by
  have h1 : k ∈ l := List.count_pos_iff.1 (by omega)
  have hc1 : 2 ≤ (l.erase k).count k := by
    rw [List.count_erase_self]
    omega
  have h2 : k ∈ l.erase k := List.count_pos_iff.1 (by omega)
  have hc2 : 1 ≤ ((l.erase k).erase k).count k := by
    rw [List.count_erase_self, List.count_erase_self]
    omega
  have h3 : k ∈ (l.erase k).erase k := List.count_pos_iff.1 (by omega)
  have e1 := List.length_erase_of_mem h1
  have e2 := List.length_erase_of_mem h2
  have e3 := List.length_erase_of_mem h3
  have hp1 := List.length_pos_of_mem h1
  have hp2 := List.length_pos_of_mem h2
  have hp3 := List.length_pos_of_mem h3
  omega

lemma erase_seq_length (l : List (Suit × Nat)) (su : Suit) (n : Nat)
    (h1 : (su, n) ∈ l) (h2 : (su, n + 1) ∈ l) (h3 : (su, n + 2) ∈ l) :
    (((l.erase (su, n)).erase (su, n + 1)).erase (su, n + 2)).length + 3 = l.length := by
  have hne1 : (su, n + 1) ≠ (su, n) := by
    intro hcon
    simp at hcon
  have hne2 : (su, n + 2) ≠ (su, n) := by
    intro hcon
    simp at hcon
  have hne3 : (su, n + 2) ≠ (su, n + 1) := by
    intro hcon
    simp at hcon
  have m2 : (su, n + 1) ∈ l.erase (su, n) := (List.mem_erase_of_ne hne1).2 h2
  have m3 : (su, n + 2) ∈ (l.erase (su, n)).erase (su, n + 1) :=
    (List.mem_erase_of_ne hne3).2 ((List.mem_erase_of_ne hne2).2 h3)
  have e1 := List.length_erase_of_mem h1
  have e2 := List.length_erase_of_mem m2
  have e3 := List.length_erase_of_mem m3
  have hp1 := List.length_pos_of_mem h1
  have hp2 := List.length_pos_of_mem m2
  have hp3 := List.length_pos_of_mem m3
  omega

lemma tryFormMeldsF_isSome :
    ∀ (fuel : Nat) (l : List (Suit × Nat)), l.length < fuel →
      (tryFormMeldsF fuel l).isSome = true := by
  intro fuel
  induction fuel with
  | zero =>
    intro l h
    omega
  | succ fuel ih =>
    intro l h
    cases l with
    | nil => rfl
    | cons hd rest =>
      obtain ⟨su, n⟩ := hd
      unfold tryFormMeldsF
      split
      · rfl
      · have hTrip : (if 3 ≤ ((su, n) :: rest).count (su, n) then
            tryFormMeldsF fuel
              (((((su, n) :: rest).erase (su, n)).erase (su, n)).erase (su, n))
          else some false).isSome = true := by
          split
          · rename_i hcnt
            apply ih
            have he := erase3_length ((su, n) :: rest) (su, n) hcnt
            have hl : ((su, n) :: rest).length < fuel + 1 := h
            omega
          · rfl
        have hSeq : (if su ≠ Suit.z ∧ n ≤ 7 ∧ (su, n + 1) ∈ (su, n) :: rest ∧
              (su, n + 2) ∈ (su, n) :: rest then
            tryFormMeldsF fuel
              (((((su, n) :: rest).erase (su, n)).erase (su, n + 1)).erase (su, n + 2))
          else some false).isSome = true := by
          split
          · rename_i hcond
            apply ih
            have he := erase_seq_length ((su, n) :: rest) su n
              (List.mem_cons_self _ _) hcond.2.2.1 hcond.2.2.2
            have hl : ((su, n) :: rest).length < fuel + 1 := h
            omega
          · rfl
        obtain ⟨b1, hb1⟩ := Option.isSome_iff_exists.1 hTrip
        obtain ⟨b2, hb2⟩ := Option.isSome_iff_exists.1 hSeq
        rw [hb1, hb2]
        rfl

lemma get_eraseTile_self (t : Tiles) (su : Suit) (x : Nat) :
    (eraseTile t (su, x)).get su = (t.get su).erase x := by
  cases su <;> rfl

lemma totalCount_eraseTile (t : Tiles) (su : Suit) (x : Nat) (h : x ∈ t.get su) :
    totalCount (eraseTile t (su, x)) + 1 = totalCount t := by
  have he := List.length_erase_of_mem h
  have hp := List.length_pos_of_mem h
  cases su <;>
    (simp only [totalCount, eraseTile, Tiles.get] at he hp ⊢; omega)

lemma firstNonEmptySuit_spec (t : Tiles) (h : ¬ totalCount t = 0) :
    ∃ fs, firstNonEmptySuit t = some fs ∧ ¬ t.get fs = [] := by
  unfold firstNonEmptySuit
  by_cases hm : t.m = []
  · by_cases hp : t.p = []
    · by_cases hs : t.s = []
      · by_cases hz : t.z = []
        · exfalso
          apply h
          unfold totalCount
          rw [hm, hp, hs, hz]
          rfl
        · rw [if_pos hm, if_pos hp, if_pos hs, if_neg hz]
          exact ⟨Suit.z, rfl, hz⟩
      · rw [if_pos hm, if_pos hp, if_neg hs]
        exact ⟨Suit.s, rfl, hs⟩
    · rw [if_pos hm, if_neg hp]
      exact ⟨Suit.p, rfl, hp⟩
  · rw [if_neg hm]
    exact ⟨Suit.m, rfl, hm⟩

lemma getMeldsRecF_isSome :
    ∀ (fuel : Nat) (t : Tiles), totalCount t < fuel →
      (getMeldsRecF fuel t).isSome = true := by
  intro fuel
  induction fuel with
  | zero =>
    intro t h
    omega
  | succ fuel ih =>
    intro t h
    unfold getMeldsRecF
    split
    · rfl
    · rename_i h0
      split
      · rename_i hnone
        obtain ⟨fs, hfs, hne⟩ := firstNonEmptySuit_spec t h0
        rw [hfs] at hnone
        cases hnone
      · rename_i fs hfs2
        split
        · rename_i hnone2
          obtain ⟨fs2, hfs3, hne⟩ := firstNonEmptySuit_spec t h0
          have hfs4 : fs2 = fs := Option.some.inj (hfs3.symm.trans hfs2)
          exact absurd (List.head?_eq_none_iff.1 hnone2) (hfs4 ▸ hne)
        · rename_i fv hsome
          have hTrip : (if 3 ≤ (t.get fs).count fv then
              match getMeldsRecF fuel
                  (eraseTile (eraseTile (eraseTile t (fs, fv)) (fs, fv)) (fs, fv)) with
              | none => none
              | some rs => some (rs.map (fun r => (MeldType.triplet, fs, fv) :: r))
            else some []).isSome = true := by
            split
            · rename_i hcnt
              have hm1 : fv ∈ t.get fs := List.count_pos_iff.1 (by omega)
              have ht1 := totalCount_eraseTile t fs fv hm1
              have hg1 : (eraseTile t (fs, fv)).get fs = (t.get fs).erase fv :=
                get_eraseTile_self t fs fv
              have hm2 : fv ∈ (eraseTile t (fs, fv)).get fs := by
                rw [hg1]
                apply List.count_pos_iff.1
                rw [List.count_erase_self]
                omega
              have ht2 := totalCount_eraseTile _ fs fv hm2
              have hg2 : (eraseTile (eraseTile t (fs, fv)) (fs, fv)).get fs =
                  ((t.get fs).erase fv).erase fv := by
                rw [get_eraseTile_self, hg1]
              have hm3 : fv ∈ (eraseTile (eraseTile t (fs, fv)) (fs, fv)).get fs := by
                rw [hg2]
                apply List.count_pos_iff.1
                rw [List.count_erase_self, List.count_erase_self]
                omega
              have ht3 := totalCount_eraseTile _ fs fv hm3
              have hrec := ih
                (eraseTile (eraseTile (eraseTile t (fs, fv)) (fs, fv)) (fs, fv))
                (by omega)
              obtain ⟨rs, hrs⟩ := Option.isSome_iff_exists.1 hrec
              rw [hrs]
              rfl
            · rfl
          have hSeq : (if fs ≠ Suit.z ∧ fv ≤ 7 ∧ (fv + 1) ∈ t.get fs ∧
                (fv + 2) ∈ t.get fs then
              match getMeldsRecF fuel
                  (eraseTile (eraseTile (eraseTile t (fs, fv)) (fs, fv + 1)) (fs, fv + 2)) with
              | none => none
              | some rs => some (rs.map (fun r => (MeldType.sequence, fs, fv) :: r))
            else some []).isSome = true := by
            split
            · rename_i hcond
              obtain ⟨ys, hys⟩ := List.head?_eq_some_iff.1 hsome
              have hm1 : fv ∈ t.get fs := by
                rw [hys]
                exact List.mem_cons_self _ _
              have ht1 := totalCount_eraseTile t fs fv hm1
              have hg1 : (eraseTile t (fs, fv)).get fs = (t.get fs).erase fv :=
                get_eraseTile_self t fs fv
              have hm2 : (fv + 1) ∈ (eraseTile t (fs, fv)).get fs := by
                rw [hg1]
                exact (List.mem_erase_of_ne (by simp)).2 hcond.2.2.1
              have ht2 := totalCount_eraseTile _ fs (fv + 1) hm2
              have hg2 : (eraseTile (eraseTile t (fs, fv)) (fs, fv + 1)).get fs =
                  ((t.get fs).erase fv).erase (fv + 1) := by
                rw [get_eraseTile_self, hg1]
              have hm3 : (fv + 2) ∈ (eraseTile (eraseTile t (fs, fv)) (fs, fv + 1)).get fs := by
                rw [hg2]
                exact (List.mem_erase_of_ne (by simp)).2
                  ((List.mem_erase_of_ne (by simp)).2 hcond.2.2.2)
              have ht3 := totalCount_eraseTile _ fs (fv + 2) hm3
              have hrec := ih
                (eraseTile (eraseTile (eraseTile t (fs, fv)) (fs, fv + 1)) (fs, fv + 2))
                (by omega)
              obtain ⟨rs, hrs⟩ := Option.isSome_iff_exists.1 hrec
              rw [hrs]
              rfl
            · rfl
          obtain ⟨a, ha⟩ := Option.isSome_iff_exists.1 hTrip
          obtain ⟨b, hb⟩ := Option.isSome_iff_exists.1 hSeq
          rw [ha, hb]
          rfl

/-- C9: both meld searches terminate — run with fuel exceeding the number of
remaining tiles they always return a result — because each recursive step
removes exactly three tiles from the remainder (the third conjunct). -/
theorem C9_search_termination :
    (∀ (l : List (Suit × Nat)) (fuel : Nat), l.length < fuel →
        (tryFormMeldsF fuel l).isSome = true) ∧
      (∀ (t : Tiles) (fuel : Nat), totalCount t < fuel →
        (getMeldsRecF fuel t).isSome = true) ∧
      (∀ (l : List (Suit × Nat)) (k : Suit × Nat), 3 ≤ l.count k →
        (((l.erase k).erase k).erase k).length + 3 = l.length) :=
  ⟨fun l fuel h => tryFormMeldsF_isSome fuel l h,
    fun t fuel h => getMeldsRecF_isSome fuel t h,
    fun l k h => erase3_length l k h⟩

theorem C9_witness :
    (tryFormMeldsF 13 [(Suit.m, 1), (Suit.m, 1), (Suit.m, 1)]).isSome = true ∧
      (getMeldsRecF 15 ⟨[1, 1, 1], [], [], []⟩).isSome = true ∧
      ((([(Suit.m, 1), (Suit.m, 1), (Suit.m, 1)].erase (Suit.m, 1)).erase
          (Suit.m, 1)).erase (Suit.m, 1)).length + 3 =
        [(Suit.m, 1), (Suit.m, 1), (Suit.m, 1)].length :=
  ⟨C9_search_termination.1 _ 13 (by decide),
    C9_search_termination.2.1 _ 15 (by decide),
    C9_search_termination.2.2 _ _ (by decide)⟩
